import Mathlib

/-!
Shallow embedding of the BlockchainOAuth repository core:
the OAuthNFT ledger contract (src/contracts/OAuthNFT.sol) and the
OAuth server handlers (src/backend/server.ts).

Addresses are modelled as `Nat`, with `0` standing for the Solidity
zero address `address(0)` (the "not present" default of mappings).
Solidity mappings and the server's in-memory JS `Map` are modelled as
association lists whose most recent write is at the head; a write is a
prepend, so lookup sees the latest value, matching mapping/Map update.
Timestamps are seconds as `Nat`.
-/

deriving instance DecidableEq for Except

namespace BlockchainOAuth

/-- Lookup in an association list with a default, modelling a Solidity
mapping read (default = zero value) or a JS object field read. -/
def assocGetD {α β : Type} [BEq α] (m : List (α × β)) (k : α) (d : β) : β :=
  match m with
  | [] => d
  | p :: rest => if p.1 == k then p.2 else assocGetD rest k d

/-- Lookup in an association list, modelling `Map.get` of the JS server
(`undefined` becomes `none`). -/
def assocFind {α β : Type} [BEq α] (m : List (α × β)) (k : α) : Option β :=
  match m with
  | [] => none
  | p :: rest => if p.1 == k then some p.2 else assocFind rest k

/-- Removal of a key, modelling `Map.delete` of the JS server. -/
def assocDelete {α β : Type} [BEq α] (m : List (α × β)) (k : α) : List (α × β) :=
  match m with
  | [] => []
  | p :: rest => if p.1 == k then assocDelete rest k else p :: assocDelete rest k

/-- Whether an `Except` result is a success (a non-reverted call). -/
def exceptIsOk {ε α : Type} : Except ε α → Bool
  | Except.ok _ => true
  | Except.error _ => false

/-! ## Bearer token codec (jsonwebtoken usage in src/backend/server.ts)

The payload signed in the `POST /oauth/token` handler is
`{tokenId, userAddress, clientId, scope}` plus the `iat`/`exp` fields
added by `jwt.sign(..., {expiresIn: '1h'})`. The HS256 signature is
modelled as an idealized MAC: a value determined exactly by the signing
secret and every signed field, so verification with the same secret
succeeds exactly on untampered tokens. -/

/-- Claims carried by the bearer token issued in `POST /oauth/token`. -/
structure JwtClaims where
  tokenId : Nat
  userAddress : Nat
  clientId : String
  scope : String
deriving DecidableEq

/-- A signed bearer token: payload, issued-at, expiry, and the modelled
HS256 signature over all of them. -/
structure Jwt where
  claims : JwtClaims
  iat : Nat
  exp : Nat
  sig : String × JwtClaims × Nat × Nat
deriving DecidableEq

/-- Models `jwt.sign(payload, secret, {expiresIn})`: `exp` is absolute. -/
def jwtSign (secret : String) (c : JwtClaims) (iat exp : Nat) : Jwt :=
  { claims := c, iat := iat, exp := exp, sig := (secret, c, iat, exp) }

/-- Models `jwt.verify(token, secret)` at local clock `now`: fails
(throws, here `none`) on a signature that does not verify against
`secret`, or when the token is expired (`now ≥ exp`, per jsonwebtoken
`clockTimestamp >= exp`). A malformed token is any value whose signature
field cannot re-verify. Decoding never touches the ledger. -/
def jwtVerify (secret : String) (tok : Jwt) (now : Nat) : Option JwtClaims :=
  if tok.sig = (secret, tok.claims, tok.iat, tok.exp) ∧ now < tok.exp then
    some tok.claims
  else
    none

/-! ## Ledger contract state (src/contracts/OAuthNFT.sol) -/

/-- The `AuthToken` struct of OAuthNFT.sol. -/
structure AuthToken where
  user : Nat
  clientId : String
  scope : String
  expiresAt : Nat
  revoked : Bool
deriving DecidableEq

/-- Default value of `mapping(uint256 => AuthToken)` for an unwritten key. -/
def emptyAuthToken : AuthToken :=
  { user := 0, clientId := "", scope := "", expiresAt := 0, revoked := false }

/-- Storage of the OAuthNFT contract: the token id counter, the
`authTokens`, ERC721 `_ownerOf`, token URI, `userTokens` and
`clientRegistry` mappings, and the Ownable `owner()`. -/
structure OAuthNFT where
  tokenIdCounter : Nat
  authTokens : List (Nat × AuthToken)
  owners : List (Nat × Nat)
  uris : List (Nat × String)
  userTokens : List (Nat × List Nat)
  clientRegistry : List (String × Nat)
  contractOwner : Nat
deriving DecidableEq

/-- State right after the constructor ran with `msg.sender = deployer`. -/
def OAuthNFT.init (deployer : Nat) : OAuthNFT :=
  { tokenIdCounter := 0, authTokens := [], owners := [], uris := [],
    userTokens := [], clientRegistry := [], contractOwner := deployer }

/-- Read of `authTokens[tokenId]` (zero struct when unwritten). -/
def lookupAuthToken (s : OAuthNFT) (t : Nat) : AuthToken :=
  assocGetD s.authTokens t emptyAuthToken

/-- Read of ERC721 `_ownerOf(tokenId)` (`0` = no owner). -/
def ownerOfD (s : OAuthNFT) (t : Nat) : Nat :=
  assocGetD s.owners t 0

/-- Read of `clientRegistry[clientId]` (`0` = not registered). -/
def clientAddr (s : OAuthNFT) (cid : String) : Nat :=
  assocGetD s.clientRegistry cid 0

/-- The contract's `_exists`: `_ownerOf(tokenId) != address(0)`. -/
def tokenExistsB (s : OAuthNFT) (t : Nat) : Bool :=
  ownerOfD s t != 0

/-- `registerClient` (onlyOwner; rejects an already-registered id). -/
def registerClient (s : OAuthNFT) (sender : Nat) (clientId : String)
    (clientAddress : Nat) : Except String OAuthNFT :=
  if sender ≠ s.contractOwner then
    Except.error "OwnableUnauthorizedAccount"
  else if clientAddr s clientId ≠ 0 then
    Except.error "Client already registered"
  else
    Except.ok { s with clientRegistry := (clientId, clientAddress) :: s.clientRegistry }

/-- `mintAuthToken`: requires a registered client and a strictly-future
expiry, then assigns `tokenId = _tokenIdCounter`, increments the
counter, `_safeMint`s to `user` (the inherited OpenZeppelin `_mint`
reverts on the zero receiver; the id is fresh by the counter, and the
receiver-callback check does not apply to plain accounts), stores the
URI and the `AuthToken` record, and appends to `userTokens[user]`. -/
def mintAuthToken (s : OAuthNFT) (user : Nat) (clientId scope : String)
    (expiresAt : Nat) (uri : String) (blockTimestamp : Nat) :
    Except String (OAuthNFT × Nat) :=
  if clientAddr s clientId = 0 then
    Except.error "Client not registered"
  else if expiresAt ≤ blockTimestamp then
    Except.error "Invalid expiration time"
  else if user = 0 then
    Except.error "ERC721InvalidReceiver"
  else
    let tokenId := s.tokenIdCounter
    Except.ok
      ({ s with
          tokenIdCounter := tokenId + 1,
          authTokens := (tokenId,
            { user := user, clientId := clientId, scope := scope,
              expiresAt := expiresAt, revoked := false }) :: s.authTokens,
          owners := (tokenId, user) :: s.owners,
          uris := (tokenId, uri) :: s.uris,
          userTokens :=
            (user, assocGetD s.userTokens user [] ++ [tokenId]) :: s.userTokens },
       tokenId)

/-- `revokeToken`: requires `_ownerOf(tokenId) == msg.sender` or the
contract owner, then sets `authTokens[tokenId].revoked = true`.
There is no existence check. (`msg.sender` is never the zero address
on the EVM, which theorems record as `sender ≠ 0` where it matters.) -/
def revokeToken (s : OAuthNFT) (sender t : Nat) : Except String OAuthNFT :=
  if ownerOfD s t = sender ∨ s.contractOwner = sender then
    Except.ok { s with
      authTokens := (t, { lookupAuthToken s t with revoked := true }) :: s.authTokens }
  else
    Except.error "Not authorized"

/-- `isTokenValid`: false when `_exists` fails, otherwise
`!token.revoked && token.expiresAt > block.timestamp`. A view function:
it never reverts for business-logic reasons (total, returns `Bool`). -/
def isTokenValid (s : OAuthNFT) (t : Nat) (blockTimestamp : Nat) : Bool :=
  if ownerOfD s t = 0 then
    false
  else
    !(lookupAuthToken s t).revoked
      && decide (blockTimestamp < (lookupAuthToken s t).expiresAt)

/-- `getTokenInfo`: requires `_exists(tokenId)`. -/
def getTokenInfo (s : OAuthNFT) (t : Nat) : Except String AuthToken :=
  if ownerOfD s t = 0 then
    Except.error "Token does not exist"
  else
    Except.ok (lookupAuthToken s t)

/-- The state-mutating entry points of the OAuthNFT contract, as a step
alphabet for reachability arguments (view functions do not change state). -/
inductive LedgerOp where
  | register (sender : Nat) (clientId : String) (clientAddress : Nat)
  | mint (user : Nat) (clientId scope : String) (expiresAt : Nat)
      (uri : String) (blockTimestamp : Nat)
  | revoke (sender t : Nat)
deriving DecidableEq

/-- One contract transaction: a reverting call leaves storage unchanged. -/
def applyOp (op : LedgerOp) (s : OAuthNFT) : OAuthNFT :=
  match op with
  | LedgerOp.register sender cid addr =>
    match registerClient s sender cid addr with
    | Except.ok s' => s'
    | Except.error _ => s
  | LedgerOp.mint user cid sc exp uri ts =>
    match mintAuthToken s user cid sc exp uri ts with
    | Except.ok (s', _) => s'
    | Except.error _ => s
  | LedgerOp.revoke sender t =>
    match revokeToken s sender t with
    | Except.ok s' => s'
    | Except.error _ => s

/-- A sequence of contract transactions, oldest first. -/
def applyOps (ops : List LedgerOp) (s : OAuthNFT) : OAuthNFT :=
  match ops with
  | [] => s
  | op :: rest => applyOps rest (applyOp op s)

/-- Storage invariant of the contract: an id has an ERC721 owner exactly
when it is below the counter, i.e. exactly when it was minted. It holds
in the constructor state and is preserved by every transaction. -/
def LedgerInv (s : OAuthNFT) : Prop :=
  ∀ t, ownerOfD s t ≠ 0 ↔ t < s.tokenIdCounter

/-! ## OAuth server (src/backend/server.ts) -/

/-- The `AuthorizationRequest` stored under an authorization code. -/
structure AuthorizationRequest where
  clientId : String
  redirectUri : String
  scope : String
  state : String
  userAddress : Nat
deriving DecidableEq

/-- The body of `POST /oauth/token`. A missing string field arrives as
`""` (both are falsy to the handler's `!x` checks); `clientSecret` is
`Option` to record explicitly that it may be absent. -/
structure TokenRequest where
  code : String
  clientId : String
  clientSecret : Option String
  redirectUri : String
deriving DecidableEq

/-- Server state: the `authorizationCodes` map plus the ledger it talks to. -/
structure ServerState where
  codes : List (String × AuthorizationRequest)
  ledger : OAuthNFT
deriving DecidableEq

/-- Outcome of `POST /oauth/token`: the four error responses (400, 400,
400, 500) and the success JSON. -/
inductive TokenResult where
  | missingParams
  | invalidCode
  | clientMismatch
  | mintFailed
  | success (accessToken : Jwt) (nftTokenId : Nat) (scope : String)
deriving DecidableEq

/-- Whether a `TokenResult` is the 200 success response. -/
def TokenResult.isSuccess : TokenResult → Bool
  | TokenResult.success _ _ _ => true
  | _ => false

/-- The `tokenURI` data-URL built in the token handler. -/
def tokenURIFor (clientId scope : String) : String :=
  "data:application/json,\x7b\"client\":\"" ++ clientId
    ++ "\",\"scope\":\"" ++ scope ++ "\"\x7d"

/-- The `POST /oauth/token` handler (the exchange). Steps, in source
order: falsy-parameter check; `authorizationCodes.get(code)`;
client/redirect mismatch check (the code is NOT deleted yet at this
point); `authorizationCodes.delete(code)`; `mintAuthToken` on the
ledger with expiry `now + 3600` (a revert is caught as the 500
response, after the delete already happened); `jwt.sign` over
`{tokenId, userAddress, clientId, scope}` with a 1-hour expiry.
`now` is the server clock, `chainNow` the ledger's `block.timestamp`. -/
def oauthToken (srv : ServerState) (req : TokenRequest) (now chainNow : Nat)
    (secret : String) : TokenResult × ServerState :=
  if req.code = "" ∨ req.clientId = "" ∨ req.redirectUri = "" then
    (TokenResult.missingParams, srv)
  else
    match assocFind srv.codes req.code with
    | none => (TokenResult.invalidCode, srv)
    | some ar =>
      if ar.clientId ≠ req.clientId ∨ ar.redirectUri ≠ req.redirectUri then
        (TokenResult.clientMismatch, srv)
      else
        match mintAuthToken srv.ledger ar.userAddress req.clientId ar.scope
            (now + 3600) (tokenURIFor req.clientId ar.scope) chainNow with
        | Except.error _ =>
          (TokenResult.mintFailed, ⟨assocDelete srv.codes req.code, srv.ledger⟩)
        | Except.ok (ledger', tokenId) =>
          (TokenResult.success
            (jwtSign secret
              { tokenId := tokenId, userAddress := ar.userAddress,
                clientId := req.clientId, scope := ar.scope }
              now (now + 3600))
            tokenId ar.scope,
           ⟨assocDelete srv.codes req.code, ledger'⟩)

/-- Outcome of `POST /oauth/verify`: 400 without a token, 401 when the
decode throws or `getTokenInfo` reverts, 401 when the ledger says the
record is invalid, and the 200 response otherwise. -/
inductive VerifyResult where
  | tokenRequired
  | unauthorized
  | invalidOrExpired
  | valid (userAddress : Nat) (clientId scope : String) (info : AuthToken)
deriving DecidableEq

/-- Whether a `VerifyResult` is the 200 `valid: true` response. -/
def VerifyResult.isValidRes : VerifyResult → Bool
  | VerifyResult.valid _ _ _ _ => true
  | _ => false

/-- The `POST /oauth/verify` handler: `jwt.verify`, then
`isTokenValid(decoded.tokenId)` on the ledger, then `getTokenInfo`. -/
def oauthVerify (ledger : OAuthNFT) (token : Option Jwt) (secret : String)
    (now chainNow : Nat) : VerifyResult :=
  match token with
  | none => VerifyResult.tokenRequired
  | some tok =>
    match jwtVerify secret tok now with
    | none => VerifyResult.unauthorized
    | some decoded =>
      if isTokenValid ledger decoded.tokenId chainNow then
        match getTokenInfo ledger decoded.tokenId with
        | Except.error _ => VerifyResult.unauthorized
        | Except.ok info =>
          VerifyResult.valid decoded.userAddress decoded.clientId decoded.scope info
      else
        VerifyResult.invalidOrExpired

/-- Outcome of `POST /oauth/revoke`: 400 without a token, 500 when the
decode throws or the ledger call reverts, 200 on success. -/
inductive RevokeResult where
  | tokenRequired
  | revocationFailed
  | revokedOk
deriving DecidableEq

/-- The `POST /oauth/revoke` handler: `jwt.verify` to recover the token
id (a throw is caught as the 500 response before any ledger call), then
`revokeToken` sent from the server's signer account. -/
def oauthRevoke (ledger : OAuthNFT) (token : Option Jwt) (secret : String)
    (now : Nat) (signerAddr : Nat) : RevokeResult × OAuthNFT :=
  match token with
  | none => (RevokeResult.tokenRequired, ledger)
  | some tok =>
    match jwtVerify secret tok now with
    | none => (RevokeResult.revocationFailed, ledger)
    | some decoded =>
      match revokeToken ledger signerAddr decoded.tokenId with
      | Except.error _ => (RevokeResult.revocationFailed, ledger)
      | Except.ok ledger' => (RevokeResult.revokedOk, ledger')

/-! ## Association-list lemmas -/

theorem assocGetD_cons_self {α β : Type} [BEq α] [LawfulBEq α]
    (k : α) (v : β) (m : List (α × β)) (d : β) :
    assocGetD ((k, v) :: m) k d = v := by
  simp [assocGetD]

theorem assocGetD_cons_ne {α β : Type} [BEq α] [LawfulBEq α]
    (k k' : α) (v : β) (m : List (α × β)) (d : β) (h : k ≠ k') :
    assocGetD ((k, v) :: m) k' d = assocGetD m k' d := by
  simp [assocGetD, h]

theorem assocFind_delete_self {α β : Type} [BEq α] [LawfulBEq α]
    (m : List (α × β)) (k : α) :
    assocFind (assocDelete m k) k = none := by
  induction m with
  | nil => rfl
  | cons p rest ih =>
    by_cases h : p.1 = k
    · simp [assocDelete, h, ih]
    · simp [assocDelete, assocFind, h, ih]

theorem assocFind_delete_ne {α β : Type} [BEq α] [LawfulBEq α]
    (m : List (α × β)) (k c : α) (h : k ≠ c) :
    assocFind (assocDelete m k) c = assocFind m c := by
  induction m with
  | nil => rfl
  | cons p rest ih =>
    by_cases hp : p.1 = k
    · simp [assocDelete, assocFind, hp, h, ih]
    · by_cases hpc : p.1 = c
      · have hb : (p.1 == k) = false := beq_eq_false_iff_ne.mpr hp
        have hc : (p.1 == c) = true := beq_iff_eq.mpr hpc
        simp [assocDelete, assocFind, hb, hc]
      · simp [assocDelete, assocFind, hp, hpc, ih]

theorem assocFind_delete_sub {α β : Type} [BEq α] [LawfulBEq α]
    (m : List (α × β)) (k c : α) (v : β)
    (h : assocFind (assocDelete m k) c = some v) :
    assocFind m c = some v := by
  by_cases hc : k = c
  · rw [hc, assocFind_delete_self] at h
    exact absurd h (by simp)
  · rwa [assocFind_delete_ne m k c hc] at h

/-! ## Shape lemmas for the contract operations -/

theorem registerClient_ok_shape (s : OAuthNFT) (sender : Nat) (cid : String)
    (addr : Nat) (s' : OAuthNFT)
    (h : registerClient s sender cid addr = Except.ok s') :
    s'.tokenIdCounter = s.tokenIdCounter ∧ s'.owners = s.owners
      ∧ s'.authTokens = s.authTokens := by
  unfold registerClient at h
  split at h
  · exact absurd h (by simp)
  · split at h
    · exact absurd h (by simp)
    · injection h with h
      subst h
      exact ⟨rfl, rfl, rfl⟩

theorem mintAuthToken_ok_shape (s : OAuthNFT) (user : Nat) (cid sc : String)
    (exp : Nat) (uri : String) (ts : Nat) (s' : OAuthNFT) (tid : Nat)
    (h : mintAuthToken s user cid sc exp uri ts = Except.ok (s', tid)) :
    tid = s.tokenIdCounter ∧ user ≠ 0 ∧ ts < exp ∧ clientAddr s cid ≠ 0
      ∧ s'.tokenIdCounter = s.tokenIdCounter + 1
      ∧ s'.authTokens = (s.tokenIdCounter,
          { user := user, clientId := cid, scope := sc,
            expiresAt := exp, revoked := false }) :: s.authTokens
      ∧ s'.owners = (s.tokenIdCounter, user) :: s.owners
      ∧ s'.clientRegistry = s.clientRegistry
      ∧ s'.contractOwner = s.contractOwner := by
  unfold mintAuthToken at h
  split at h
  · exact absurd h (by simp)
  · split at h
    · exact absurd h (by simp)
    · split at h
      · exact absurd h (by simp)
      · rename_i h1 h2 h3
        injection h with h
        injection h with hs ht
        subst hs
        exact ⟨ht.symm, h3, by omega, h1, rfl, rfl, rfl, rfl, rfl⟩

theorem revokeToken_ok_shape (s : OAuthNFT) (sender t : Nat) (s' : OAuthNFT)
    (h : revokeToken s sender t = Except.ok s') :
    (ownerOfD s t = sender ∨ s.contractOwner = sender)
      ∧ s'.tokenIdCounter = s.tokenIdCounter
      ∧ s'.owners = s.owners
      ∧ s'.uris = s.uris
      ∧ s'.userTokens = s.userTokens
      ∧ s'.clientRegistry = s.clientRegistry
      ∧ s'.contractOwner = s.contractOwner
      ∧ s'.authTokens
          = (t, { lookupAuthToken s t with revoked := true }) :: s.authTokens := by
  unfold revokeToken at h
  split at h
  · rename_i hcond
    injection h with h
    subst h
    exact ⟨hcond, rfl, rfl, rfl, rfl, rfl, rfl, rfl⟩
  · exact absurd h (by simp)

theorem counter_monotone (op : LedgerOp) (s : OAuthNFT) :
    s.tokenIdCounter ≤ (applyOp op s).tokenIdCounter := by
  cases op with
  | register sender cid addr =>
    simp only [applyOp]
    split
    · rename_i s' h
      have h1 := (registerClient_ok_shape s sender cid addr s' h).1
      omega
    · exact Nat.le_refl _
  | mint user cid sc exp uri ts =>
    simp only [applyOp]
    split
    · rename_i s' tid h
      have h5 :=
        (mintAuthToken_ok_shape s user cid sc exp uri ts s' tid h).2.2.2.2.1
      omega
    · exact Nat.le_refl _
  | revoke sender t =>
    simp only [applyOp]
    split
    · rename_i s' h
      have h5 := (revokeToken_ok_shape s sender t s' h).2.1
      omega
    · exact Nat.le_refl _

theorem isTokenValid_of_revoked (s : OAuthNFT) (t now : Nat)
    (h : (lookupAuthToken s t).revoked = true) :
    isTokenValid s t now = false := by
  unfold isTokenValid
  split
  · rfl
  · simp [h]

/-! ## Claim theorems -/

/-- C7: if the bearer token presented to `POST /oauth/revoke` fails to
decode (malformed, bad signature, or already locally expired), the whole
operation fails (500) before any ledger call: the ledger state returned
is exactly the input state, so no record's `revoked` flag changes. -/
theorem revoke_decode_gate (ledger : OAuthNFT) (tok : Jwt) (secret : String)
    (now signerAddr : Nat) (h : jwtVerify secret tok now = none) :
    oauthRevoke ledger (some tok) secret now signerAddr
      = (RevokeResult.revocationFailed, ledger) := by
  simp [oauthRevoke, h]

theorem revoke_decode_gate_witness :
    jwtVerify "k" (jwtSign "k" ⟨0, 2, "cid", "read"⟩ 0 10) 10 = none ∧
      oauthRevoke (OAuthNFT.init 1)
          (some (jwtSign "k" ⟨0, 2, "cid", "read"⟩ 0 10)) "k" 10 1
        = (RevokeResult.revocationFailed, OAuthNFT.init 1) :=
  ⟨by decide,
   revoke_decode_gate (OAuthNFT.init 1) (jwtSign "k" ⟨0, 2, "cid", "read"⟩ 0 10)
     "k" 10 1 (by decide)⟩

/-- C8: round-trip of the bearer token codec — decoding a token issued
with time-to-live `ttl` over claims `c`, before `ttl` has elapsed and
with the same secret, recovers exactly `c`. -/
theorem jwt_roundtrip (secret : String) (c : JwtClaims) (issuedAt ttl t : Nat)
    (h : t < issuedAt + ttl) :
    jwtVerify secret (jwtSign secret c issuedAt (issuedAt + ttl)) t = some c := by
  simp [jwtVerify, jwtSign, h]

theorem jwt_roundtrip_witness :
    (3 : Nat) < 0 + 10 ∧
      jwtVerify "k" (jwtSign "k" ⟨1, 2, "cid", "read"⟩ 0 (0 + 10)) 3
        = some ⟨1, 2, "cid", "read"⟩ :=
  ⟨by decide, jwt_roundtrip "k" ⟨1, 2, "cid", "read"⟩ 0 10 3 (by decide)⟩

/-- C9: noninterference of `clientSecret` — two exchange requests that
agree on everything except the `clientSecret` field (either value, or
absent) produce identical results and identical post-states: the
handler never reads that field. -/
theorem exchange_clientSecret_noninterference (srv : ServerState)
    (code clientId redirectUri : String) (cs₁ cs₂ : Option String)
    (now chainNow : Nat) (secret : String) :
    oauthToken srv ⟨code, clientId, cs₁, redirectUri⟩ now chainNow secret
      = oauthToken srv ⟨code, clientId, cs₂, redirectUri⟩ now chainNow secret :=
  rfl

/-- C1 (refutation): the claim that a mismatched exchange consumes the
authorization code is false on the code. In the handler, the 400
"Client mismatch" return happens BEFORE `authorizationCodes.delete(code)`:
here, a mismatched exchange leaves the whole server state (the stored
code included) unchanged, and a second exchange with the same code and
fully matching parameters then succeeds instead of failing. -/
theorem exchange_mismatch_consumes_refuted :
    oauthToken
        ⟨[("c", ⟨"a", "r", "read", "st", 7⟩)], ⟨0, [], [], [], [], [("a", 9)], 1⟩⟩
        ⟨"c", "a", none, "WRONG"⟩ 0 0 "k"
      = (TokenResult.clientMismatch,
         ⟨[("c", ⟨"a", "r", "read", "st", 7⟩)], ⟨0, [], [], [], [], [("a", 9)], 1⟩⟩)
    ∧ (oauthToken
        ⟨[("c", ⟨"a", "r", "read", "st", 7⟩)], ⟨0, [], [], [], [], [("a", 9)], 1⟩⟩
        ⟨"c", "a", none, "r"⟩ 0 0 "k").1.isSuccess = true := by
  decide

/-- C1 (amended): exchange with a stored code but a `clientId` or
`redirectUri` that does not match the stored request byte-for-byte fails
with the 400 "Client mismatch" `GrantError`, and the code is NOT
consumed: the server state, its code store included, is returned
unchanged, so the same code remains exchangeable. -/
theorem exchange_mismatch_leaves_code (srv : ServerState) (req : TokenRequest)
    (now chainNow : Nat) (secret : String) (ar : AuthorizationRequest)
    (hc : req.code ≠ "") (hcid : req.clientId ≠ "") (hr : req.redirectUri ≠ "")
    (hfind : assocFind srv.codes req.code = some ar)
    (hmis : ar.clientId ≠ req.clientId ∨ ar.redirectUri ≠ req.redirectUri) :
    oauthToken srv req now chainNow secret = (TokenResult.clientMismatch, srv) := by
  simp [oauthToken, hc, hcid, hr, hfind, hmis]

theorem exchange_mismatch_leaves_code_witness :
    oauthToken ⟨[("c2", ⟨"a", "r", "read", "st", 7⟩)], OAuthNFT.init 1⟩
        ⟨"c2", "a", none, "R2"⟩ 0 0 "k"
      = (TokenResult.clientMismatch,
         ⟨[("c2", ⟨"a", "r", "read", "st", 7⟩)], OAuthNFT.init 1⟩) :=
  exchange_mismatch_leaves_code
    ⟨[("c2", ⟨"a", "r", "read", "st", 7⟩)], OAuthNFT.init 1⟩
    ⟨"c2", "a", none, "R2"⟩ 0 0 "k" ⟨"a", "r", "read", "st", 7⟩
    (by decide) (by decide) (by decide) (by decide) (by decide)

/-- C2: the one-shot property of codes that the exchange does enforce.
First: a successful exchange removes the code from the store. Second: an
exchange whose (well-formed) request carries a code absent from the
store — never issued, expired away, or already consumed — fails with the
400 "Invalid authorization code" `GrantError` and returns the state
unchanged, so in particular no ledger mint happens. Third: an exchange
never adds a code to the store. Together: at most one exchange with a
given code succeeds, and once it does, every later exchange with that
code fails without minting. -/
theorem exchange_one_shot :
    (∀ srv req now chainNow secret tok tid sc srv',
        oauthToken srv req now chainNow secret
          = (TokenResult.success tok tid sc, srv') →
        assocFind srv'.codes req.code = none)
    ∧ (∀ srv req now chainNow secret,
        req.code ≠ "" → req.clientId ≠ "" → req.redirectUri ≠ "" →
        assocFind srv.codes req.code = none →
        oauthToken srv req now chainNow secret = (TokenResult.invalidCode, srv))
    ∧ (∀ srv req now chainNow secret res srv' c ar,
        oauthToken srv req now chainNow secret = (res, srv') →
        assocFind srv'.codes c = some ar →
        assocFind srv.codes c = some ar) := by
  refine ⟨?_, ?_, ?_⟩
  · intro srv req now chainNow secret tok tid sc srv' h
    unfold oauthToken at h
    split at h
    · simp at h
    · split at h
      · simp at h
      · rename_i ar
        split at h
        · simp at h
        · split at h
          · simp at h
          · rename_i ledger' tid' hmint
            have hs : srv' = ⟨assocDelete srv.codes req.code, ledger'⟩ := by
              have h2 := congrArg Prod.snd h
              simpa using h2.symm
            rw [hs]
            exact assocFind_delete_self _ _
  · intro srv req now chainNow secret hc hcid hr hfind
    simp [oauthToken, hc, hcid, hr, hfind]
  · intro srv req now chainNow secret res srv' c ar h hfind
    unfold oauthToken at h
    split at h
    · injection h with h1 h2
      subst h2
      exact hfind
    · split at h
      · injection h with h1 h2
        subst h2
        exact hfind
      · split at h
        · injection h with h1 h2
          subst h2
          exact hfind
        · split at h
          · injection h with h1 h2
            subst h2
            exact assocFind_delete_sub srv.codes req.code c ar hfind
          · injection h with h1 h2
            subst h2
            exact assocFind_delete_sub srv.codes req.code c ar hfind

theorem exchange_one_shot_witness :
    oauthToken ⟨[], OAuthNFT.init 1⟩ ⟨"cx", "a", none, "r"⟩ 0 0 "k"
      = (TokenResult.invalidCode, ⟨[], OAuthNFT.init 1⟩) :=
  exchange_one_shot.2.1 ⟨[], OAuthNFT.init 1⟩ ⟨"cx", "a", none, "r"⟩ 0 0 "k"
    (by decide) (by decide) (by decide) (by decide)

/-- C10 (implicit behaviour of `revokeToken`): no existence check is
performed. On a token id that was never minted (equivalently, under the
storage invariant, an id at or above the counter, so `_ownerOf` is the
zero address), the contract owner's revoke succeeds and records the id
as revoked, while any other caller (a real account, hence not the zero
address) fails with "Not authorized". -/
theorem revoke_unminted_owner_only (s : OAuthNFT) (t : Nat)
    (hinv : LedgerInv s) (hun : s.tokenIdCounter ≤ t) :
    (∃ s', revokeToken s s.contractOwner t = Except.ok s'
        ∧ (lookupAuthToken s' t).revoked = true)
    ∧ (∀ c, c ≠ 0 → c ≠ s.contractOwner →
        revokeToken s c t = Except.error "Not authorized") := by
  have howner : ownerOfD s t = 0 := by
    by_contra h0
    have := (hinv t).mp h0
    omega
  constructor
  · refine ⟨{ s with authTokens :=
        (t, { lookupAuthToken s t with revoked := true }) :: s.authTokens }, ?_, ?_⟩
    · unfold revokeToken
      rw [if_pos (Or.inr rfl)]
    · simp [lookupAuthToken, assocGetD_cons_self]
  · intro c hc0 hcown
    have hcond : ¬(ownerOfD s t = c ∨ s.contractOwner = c) := by
      rintro (h1 | h1)
      · rw [howner] at h1
        exact hc0 h1.symm
      · exact hcown h1.symm
    unfold revokeToken
    rw [if_neg hcond]

theorem revoke_unminted_owner_only_witness :
    revokeToken (OAuthNFT.init 1) 3 5 = Except.error "Not authorized" :=
  (revoke_unminted_owner_only (OAuthNFT.init 1) 5
      (by
        intro t
        simp [LedgerInv, OAuthNFT.init, ownerOfD, assocGetD])
      (by decide)).2
    3 (by decide) (by decide)

theorem authToken_set_revoked_id (r : AuthToken) (h : r.revoked = true) :
    { r with revoked := true } = r := by
  cases r
  simp_all

theorem revoked_preserved_op (op : LedgerOp) (s : OAuthNFT) (t : Nat)
    (hlt : t < s.tokenIdCounter)
    (hrev : (lookupAuthToken s t).revoked = true) :
    t < (applyOp op s).tokenIdCounter
      ∧ (lookupAuthToken (applyOp op s) t).revoked = true := by
  cases op with
  | register sender cid addr =>
    simp only [applyOp]
    split
    · rename_i s' h
      obtain ⟨h1, h2, h3⟩ := registerClient_ok_shape s sender cid addr s' h
      refine ⟨by omega, ?_⟩
      unfold lookupAuthToken
      rw [h3]
      exact hrev
    · exact ⟨hlt, hrev⟩
  | mint user cid sc exp uri ts =>
    simp only [applyOp]
    split
    · rename_i s' tid h
      obtain ⟨htid, huser, hts, hcl, hcnt, hat, hown, hcr, hco⟩ :=
        mintAuthToken_ok_shape s user cid sc exp uri ts s' tid h
      refine ⟨by omega, ?_⟩
      unfold lookupAuthToken
      rw [hat, assocGetD_cons_ne _ _ _ _ _ (by omega)]
      exact hrev
    · exact ⟨hlt, hrev⟩
  | revoke sender u =>
    simp only [applyOp]
    split
    · rename_i s' h
      obtain ⟨hcond, hcnt, hown, hur, hut, hcr, hco, hat⟩ :=
        revokeToken_ok_shape s sender u s' h
      refine ⟨by omega, ?_⟩
      unfold lookupAuthToken
      rw [hat]
      by_cases hu : u = t
      · subst hu
        rw [assocGetD_cons_self]
      · rw [assocGetD_cons_ne _ _ _ _ _ hu]
        exact hrev
    · exact ⟨hlt, hrev⟩

/-- C3: `POST /oauth/verify` answers `valid: true` exactly when the
codec decode succeeds (signature verifies against the server secret and
the local expiry has not passed) AND the ledger reports the decoded
token id as valid; and whenever the ledger record for the decoded id is
revoked, the endpoint reports the token invalid even though the bearer
token's own expiry may not have passed. -/
theorem verify_valid_iff_ledger (ledger : OAuthNFT) (tok : Jwt)
    (secret : String) (now chainNow : Nat) :
    ((oauthVerify ledger (some tok) secret now chainNow).isValidRes = true
      ↔ ∃ c, jwtVerify secret tok now = some c
          ∧ isTokenValid ledger c.tokenId chainNow = true)
    ∧ (∀ c, jwtVerify secret tok now = some c →
        (lookupAuthToken ledger c.tokenId).revoked = true →
        (oauthVerify ledger (some tok) secret now chainNow).isValidRes
          = false) := by
  constructor
  · cases hv : jwtVerify secret tok now with
    | none => simp [oauthVerify, hv, VerifyResult.isValidRes]
    | some c =>
      by_cases hval : isTokenValid ledger c.tokenId chainNow = true
      · have howner : ¬ ownerOfD ledger c.tokenId = 0 := by
          intro h0
          rw [isTokenValid, if_pos h0] at hval
          exact Bool.false_ne_true hval
        simp [oauthVerify, hv, hval, getTokenInfo, howner,
          VerifyResult.isValidRes]
      · simp [oauthVerify, hv, hval, VerifyResult.isValidRes]
  · intro c hv hrev
    have hval := isTokenValid_of_revoked ledger c.tokenId chainNow hrev
    simp [oauthVerify, hv, hval, VerifyResult.isValidRes]

theorem verify_valid_iff_ledger_witness :
    (oauthVerify
        ⟨1, [(0, ⟨7, "a", "read", 100, false⟩)], [(0, 7)], [(0, "u")],
          [(7, [0])], [("a", 9)], 1⟩
        (some (jwtSign "k" ⟨0, 7, "a", "read"⟩ 0 50)) "k" 10 10).isValidRes
      = true :=
  (verify_valid_iff_ledger
      ⟨1, [(0, ⟨7, "a", "read", 100, false⟩)], [(0, 7)], [(0, "u")],
        [(7, [0])], [("a", 9)], 1⟩
      (jwtSign "k" ⟨0, 7, "a", "read"⟩ 0 50) "k" 10 10).1.mpr
    ⟨⟨0, 7, "a", "read"⟩, by decide, by decide⟩

/-- C4: under the contract storage invariant — established by the
constructor and preserved by every transaction, both proved here —
`isTokenValid` returns false for an id that was never minted (an id at
or above the counter), and for a minted id returns exactly the derived
predicate `!revoked && expiresAt > now`. Being a total `Bool`-valued
view function, it cannot fail for business-logic reasons. -/
theorem isTokenValid_never_minted_spec :
    (∀ d, LedgerInv (OAuthNFT.init d))
    ∧ (∀ op s, LedgerInv s → LedgerInv (applyOp op s))
    ∧ (∀ s, LedgerInv s → ∀ t now,
        isTokenValid s t now
          = if t < s.tokenIdCounter then
              !(lookupAuthToken s t).revoked
                && decide (now < (lookupAuthToken s t).expiresAt)
            else false) := by
  refine ⟨?_, ?_, ?_⟩
  · intro d t
    simp [OAuthNFT.init, ownerOfD, assocGetD]
  · intro op s hinv
    cases op with
    | register sender cid addr =>
      simp only [applyOp]
      split
      · rename_i s' h
        obtain ⟨h1, h2, h3⟩ := registerClient_ok_shape s sender cid addr s' h
        intro t
        unfold ownerOfD
        rw [h2, h1]
        exact hinv t
      · exact hinv
    | mint user cid sc exp uri ts =>
      simp only [applyOp]
      split
      · rename_i s' tid h
        obtain ⟨htid, huser, hts, hcl, hcnt, hat, hown, hcr, hco⟩ :=
          mintAuthToken_ok_shape s user cid sc exp uri ts s' tid h
        intro t
        unfold ownerOfD
        rw [hown, hcnt]
        by_cases het : s.tokenIdCounter = t
        · subst het
          rw [assocGetD_cons_self]
          constructor
          · intro _
            omega
          · intro _
            exact huser
        · rw [assocGetD_cons_ne _ _ _ _ _ het]
          have hiv := hinv t
          unfold ownerOfD at hiv
          constructor
          · intro hne
            have := hiv.mp hne
            omega
          · intro hl
            exact hiv.mpr (by omega)
      · exact hinv
    | revoke sender u =>
      simp only [applyOp]
      split
      · rename_i s' h
        obtain ⟨hcond, hcnt, hown, hur, hut, hcr, hco, hat⟩ :=
          revokeToken_ok_shape s sender u s' h
        intro t
        unfold ownerOfD
        rw [hown, hcnt]
        exact hinv t
      · exact hinv
  · intro s hinv t now
    by_cases hlt : t < s.tokenIdCounter
    · have howner : ownerOfD s t ≠ 0 := (hinv t).mpr hlt
      rw [if_pos hlt]
      unfold isTokenValid
      rw [if_neg howner]
    · have howner : ownerOfD s t = 0 := by
        by_contra h0
        exact hlt ((hinv t).mp h0)
      rw [if_neg hlt]
      unfold isTokenValid
      rw [if_pos howner]

theorem isTokenValid_never_minted_spec_witness :
    isTokenValid
        ⟨1, [(0, ⟨7, "a", "read", 100, false⟩)], [(0, 7)], [(0, "u")],
          [(7, [0])], [("a", 9)], 1⟩ 0 10
      = if (0 : Nat)
            < (OAuthNFT.tokenIdCounter
                ⟨1, [(0, ⟨7, "a", "read", 100, false⟩)], [(0, 7)], [(0, "u")],
                  [(7, [0])], [("a", 9)], 1⟩) then
          !(lookupAuthToken
              ⟨1, [(0, ⟨7, "a", "read", 100, false⟩)], [(0, 7)], [(0, "u")],
                [(7, [0])], [("a", 9)], 1⟩ 0).revoked
            && decide ((10 : Nat)
              < (lookupAuthToken
                  ⟨1, [(0, ⟨7, "a", "read", 100, false⟩)], [(0, 7)], [(0, "u")],
                    [(7, [0])], [("a", 9)], 1⟩ 0).expiresAt)
        else false :=
  isTokenValid_never_minted_spec.2.2
    ⟨1, [(0, ⟨7, "a", "read", 100, false⟩)], [(0, 7)], [(0, "u")],
      [(7, [0])], [("a", 9)], 1⟩
    (by
      intro t
      rcases t with _ | n <;> simp [ownerOfD, assocGetD])
    0 10

/-- C5: the `revoked` flag of a minted record is one-way. A successful
revoke marks the record revoked; a second revoke of the same id by the
same caller succeeds as a no-op (storage is observably unchanged) rather
than raising an error; and once a minted id (an id below the counter) is
revoked, every sequence of further contract transactions keeps it
revoked and keeps `isTokenValid` false for it. -/
theorem revoke_one_way_permanent :
    (∀ s sender t s₁, revokeToken s sender t = Except.ok s₁ →
        (lookupAuthToken s₁ t).revoked = true
      ∧ ∃ s₂, revokeToken s₁ sender t = Except.ok s₂
          ∧ s₂.tokenIdCounter = s₁.tokenIdCounter
          ∧ s₂.owners = s₁.owners
          ∧ s₂.uris = s₁.uris
          ∧ s₂.userTokens = s₁.userTokens
          ∧ s₂.clientRegistry = s₁.clientRegistry
          ∧ s₂.contractOwner = s₁.contractOwner
          ∧ (∀ u, lookupAuthToken s₂ u = lookupAuthToken s₁ u))
    ∧ (∀ s t ops, t < s.tokenIdCounter →
        (lookupAuthToken s t).revoked = true →
        (lookupAuthToken (applyOps ops s) t).revoked = true
      ∧ ∀ now, isTokenValid (applyOps ops s) t now = false) := by
  constructor
  · intro s sender t s₁ h
    obtain ⟨hcond, hcnt, hown, hur, hut, hcr, hco, hat⟩ :=
      revokeToken_ok_shape s sender t s₁ h
    have hrev1 : (lookupAuthToken s₁ t).revoked = true := by
      unfold lookupAuthToken
      rw [hat, assocGetD_cons_self]
    refine ⟨hrev1, ?_⟩
    have hcond1 : ownerOfD s₁ t = sender ∨ s₁.contractOwner = sender := by
      unfold ownerOfD
      rw [hown, hco]
      exact hcond
    refine ⟨{ s₁ with authTokens :=
        (t, { lookupAuthToken s₁ t with revoked := true }) :: s₁.authTokens },
      ?_, rfl, rfl, rfl, rfl, rfl, rfl, ?_⟩
    · unfold revokeToken
      rw [if_pos hcond1]
    · intro u
      by_cases hu : t = u
      · subst hu
        show assocGetD
            ((t, { lookupAuthToken s₁ t with revoked := true }) :: s₁.authTokens)
            t emptyAuthToken
          = lookupAuthToken s₁ t
        rw [assocGetD_cons_self]
        exact authToken_set_revoked_id _ hrev1
      · show assocGetD
            ((t, { lookupAuthToken s₁ t with revoked := true }) :: s₁.authTokens)
            u emptyAuthToken
          = lookupAuthToken s₁ u
        rw [assocGetD_cons_ne _ _ _ _ _ hu]
        rfl
  · intro s t ops
    induction ops generalizing s with
    | nil =>
      intro hlt hrev
      exact ⟨hrev, fun now => isTokenValid_of_revoked s t now hrev⟩
    | cons op rest ih =>
      intro hlt hrev
      obtain ⟨hlt', hrev'⟩ := revoked_preserved_op op s t hlt hrev
      exact ih (applyOp op s) hlt' hrev'

theorem revoke_one_way_permanent_witness :
    (lookupAuthToken
        ⟨1, [(0, ⟨7, "a", "read", 100, true⟩), (0, ⟨7, "a", "read", 100, false⟩)],
          [(0, 7)], [(0, "u")], [(7, [0])], [("a", 9)], 1⟩ 0).revoked = true :=
  (revoke_one_way_permanent.1
      ⟨1, [(0, ⟨7, "a", "read", 100, false⟩)], [(0, 7)], [(0, "u")],
        [(7, [0])], [("a", 9)], 1⟩
      7 0
      ⟨1, [(0, ⟨7, "a", "read", 100, true⟩), (0, ⟨7, "a", "read", 100, false⟩)],
        [(0, 7)], [(0, "u")], [(7, [0])], [("a", 9)], 1⟩
      (by decide)).1

/-- C6 (refutation): the claim "fails with `ClientUnregistered` when the
clientId has no registered address, fails with `InvalidExpiry` when
`expiresAt` is not strictly in the future, and otherwise commits" is
false: with a registered client and a strictly-future expiry, a mint to
the zero subject address still fails, because the inherited OpenZeppelin
`_safeMint` rejects the zero address as receiver. -/
theorem mint_otherwise_commits_refuted :
    clientAddr ⟨0, [], [], [], [], [("a", 9)], 1⟩ "a" ≠ 0
    ∧ (5 : Nat) < 10
    ∧ mintAuthToken ⟨0, [], [], [], [], [("a", 9)], 1⟩ 0 "a" "read" 10 "u" 5
        = Except.error "ERC721InvalidReceiver" := by
  refine ⟨by decide, by decide, by decide⟩

/-- C6 (amended): `mintAuthToken` fails with "Client not registered"
(`ClientUnregistered`) when the clientId has no registered address,
fails with "Invalid expiration time" (`InvalidExpiry`) when `expiresAt`
is not strictly after the current block time, fails on the zero subject
address (ERC721 receiver constraint), and otherwise commits a new record
owned by the subject and returns the current counter as the assigned id,
incrementing the counter; since the returned id always equals the
counter, the counter strictly increases at each successful mint, and no
transaction ever decreases it, assigned ids are unique and monotonically
increasing across successful mints. -/
theorem mint_spec_amended :
    (∀ s user cid sc exp uri ts, clientAddr s cid = 0 →
        mintAuthToken s user cid sc exp uri ts
          = Except.error "Client not registered")
    ∧ (∀ s user cid sc exp uri ts, clientAddr s cid ≠ 0 → exp ≤ ts →
        mintAuthToken s user cid sc exp uri ts
          = Except.error "Invalid expiration time")
    ∧ (∀ s user cid sc exp uri ts, clientAddr s cid ≠ 0 → ts < exp →
        user ≠ 0 →
        ∃ s', mintAuthToken s user cid sc exp uri ts
            = Except.ok (s', s.tokenIdCounter)
          ∧ s'.tokenIdCounter = s.tokenIdCounter + 1
          ∧ lookupAuthToken s' s.tokenIdCounter
              = { user := user, clientId := cid, scope := sc,
                  expiresAt := exp, revoked := false }
          ∧ ownerOfD s' s.tokenIdCounter = user)
    ∧ (∀ op s, s.tokenIdCounter ≤ (applyOp op s).tokenIdCounter) := by
  refine ⟨?_, ?_, ?_, counter_monotone⟩
  · intro s user cid sc exp uri ts h1
    unfold mintAuthToken
    rw [if_pos h1]
  · intro s user cid sc exp uri ts h1 h2
    unfold mintAuthToken
    rw [if_neg h1, if_pos h2]
  · intro s user cid sc exp uri ts h1 h2 h3
    refine ⟨{ s with
        tokenIdCounter := s.tokenIdCounter + 1,
        authTokens := (s.tokenIdCounter,
          { user := user, clientId := cid, scope := sc,
            expiresAt := exp, revoked := false }) :: s.authTokens,
        owners := (s.tokenIdCounter, user) :: s.owners,
        uris := (s.tokenIdCounter, uri) :: s.uris,
        userTokens :=
          (user, assocGetD s.userTokens user [] ++ [s.tokenIdCounter])
            :: s.userTokens }, ?_, rfl, ?_, ?_⟩
    · unfold mintAuthToken
      rw [if_neg h1, if_neg (by omega), if_neg h3]
    · unfold lookupAuthToken
      exact assocGetD_cons_self _ _ _ _
    · unfold ownerOfD
      exact assocGetD_cons_self _ _ _ _

theorem mint_spec_amended_witness :
    exceptIsOk
        (mintAuthToken ⟨0, [], [], [], [], [("a", 9)], 1⟩ 7 "a" "read" 10 "u" 5)
      = true := by
  obtain ⟨s', h, -, -, -⟩ :=
    mint_spec_amended.2.2.1 ⟨0, [], [], [], [], [("a", 9)], 1⟩ 7 "a" "read" 10
      "u" 5 (by decide) (by decide) (by decide)
  rw [h]
  rfl

end BlockchainOAuth
